import Mathlib

/-!
Verification of the single-page WASM memory allocator
(`wasm_utils/src/memory_allocation.rs`).

The Rust code is shallowly embedded over `Nat`: a `u16` value is a `Nat`
below `2 ^ 16`, a `u32` value a `Nat` below `2 ^ 32`, and every cast or
wrapping operation of the source is written out as an explicit `%`.
Fallible operations return `Except`; the unconditional `assert!` in
`allocate` is modelled as `Option` (`none` = aborted assertion).
-/

/-- Embeds the constant `U16_MAX: u32 = <u16>::max_value() as u32`, i.e. 65535. -/
def U16_MAX : Nat := 65535

/-- Embeds `u32_high_bits(i: u32) -> u16 { (i >> 16) as u16 }`.
The trailing `% 2 ^ 16` is the `as u16` truncation (a no-op for `i < 2 ^ 32`). -/
def u32_high_bits (i : Nat) : Nat := (i >>> 16) % 2 ^ 16

/-- Embeds `u32_low_bits(i: u32) -> u16 { (i as u16 % <u16>::max_value()) }`.
Note the source takes the remainder modulo `u16::max_value() = 65535`,
not modulo `2 ^ 16`: the `as u16` cast is `% 2 ^ 16`, the explicit `%` is
`% U16_MAX`. -/
def u32_low_bits (i : Nat) : Nat := (i % 2 ^ 16) % U16_MAX

/-- Embeds `u32_split_bits(i: u32) -> (u16, u16)`. -/
def u32_split_bits (i : Nat) : Nat × Nat := (u32_high_bits i, u32_low_bits i)

/-- Embeds `u32_merge_bits(high: u16, low: u16) -> u32 { (u32::from(high) << 16) | u32::from(low) }`.
For `high < 2 ^ 16` the shifted value fits in 32 bits, so no `u32` truncation
is needed. -/
def u32_merge_bits (high low : Nat) : Nat := (high <<< 16) ||| low

/-- Modelled from the spec: the error-code catalog (`RibosomeReturnCode`, owned
by `wasm_utils/src/error.rs`, which is not part of the provided source).
Section 6 of the spec lists the recognized selectors: 0 = Success,
1 = Failure, 2 = ArgumentDeserializationFailed, 3 = OutOfMemory,
4 = ReceivedWrongActionResult. -/
inductive RibosomeReturnCode where
  | Success
  | Failure
  | ArgumentDeserializationFailed
  | OutOfMemory
  | ReceivedWrongActionResult
deriving DecidableEq

/-- Modelled from the spec: `code-for-offset(offset) -> ErrorKind`, the
selector-to-error mapping of the external catalog; any unrecognized offset
maps to the generic `Failure` selector. -/
def RibosomeReturnCode.from_offset (offset : Nat) : RibosomeReturnCode :=
  match offset with
  | 0 => RibosomeReturnCode.Success
  | 1 => RibosomeReturnCode.Failure
  | 2 => RibosomeReturnCode.ArgumentDeserializationFailed
  | 3 => RibosomeReturnCode.OutOfMemory
  | 4 => RibosomeReturnCode.ReceivedWrongActionResult
  | _ => RibosomeReturnCode.Failure

/-- Embeds `struct SinglePageAllocation { offset: u16, length: u16 }`. -/
structure SinglePageAllocation where
  offset : Nat
  length : Nat
deriving DecidableEq

/-- Embeds `SinglePageAllocation::new(encoded_allocation: u32) -> Result<Self, RibosomeReturnCode>`:
split the word, return the error selector for a zero length, the
`OutOfMemory` code when `offset as u32 + length as u32 > U16_MAX`
(the sum is computed in `u32`, hence without truncation), and the
allocation otherwise. -/
def SinglePageAllocation.new (encoded_allocation : Nat) :
    Except RibosomeReturnCode SinglePageAllocation :=
  let allocation : SinglePageAllocation :=
    { offset := (u32_split_bits encoded_allocation).1
      length := (u32_split_bits encoded_allocation).2 }
  if allocation.length = 0 then
    Except.error (RibosomeReturnCode.from_offset allocation.offset)
  else if allocation.offset + allocation.length > U16_MAX then
    Except.error RibosomeReturnCode.OutOfMemory
  else
    Except.ok allocation

/-- Embeds `SinglePageAllocation::encode(self) -> u32`. -/
def SinglePageAllocation.encode (self : SinglePageAllocation) : Nat :=
  u32_merge_bits self.offset self.length

/-- Embeds `struct SinglePageStack { top: u16 }`. -/
structure SinglePageStack where
  top : Nat
deriving DecidableEq

/-- Embeds `#[derive(Default)]` for `SinglePageStack`: `top = 0`. -/
def SinglePageStack.default : SinglePageStack := { top := 0 }

/-- Embeds `SinglePageStack::allocate(&mut self, size: u16) -> u16`.
The source first runs `assert!(self.top as u32 + size as u32 <= U16_MAX)`
(an abort, modelled as `none`), then `self.top += size` and returns the old
top. The `% 2 ^ 16` models the `u16` addition; under the assertion it never
truncates. -/
def SinglePageStack.allocate (self : SinglePageStack) (size : Nat) :
    Option (Nat × SinglePageStack) :=
  if self.top + size ≤ U16_MAX then
    some (self.top, { top := (self.top + size) % 2 ^ 16 })
  else
    none

/-- Embeds `SinglePageStack::deallocate(&mut self, allocation) -> Result<(), ()>`.
The comparison `self.top == allocation.offset + allocation.length` adds two
`u16` values in `u16`, which wraps modulo `2 ^ 16` (Rust release semantics),
hence the explicit `% 2 ^ 16`. On success the new state is returned; on
failure the state is unchanged (the embedding returns no state, so the old
one persists). -/
def SinglePageStack.deallocate (self : SinglePageStack)
    (allocation : SinglePageAllocation) : Except Unit SinglePageStack :=
  if self.top = (allocation.offset + allocation.length) % 2 ^ 16 then
    Except.ok { top := allocation.offset }
  else
    Except.error ()

/-! ### Bridge lemmas between the bit operations and arithmetic -/

/-- Merging writes the high half next to the low half: for `low < 2 ^ 16` the
bitwise or of the disjoint halves is a plain sum. -/
theorem u32_merge_bits_eq_add (high low : Nat) (hlow : low < 2 ^ 16) :
    u32_merge_bits high low = high * 2 ^ 16 + low := by
  rw [u32_merge_bits, Nat.shiftLeft_eq, Nat.mul_comm high (2 ^ 16),
    ← Nat.mul_add_lt_is_or hlow high, Nat.mul_comm (2 ^ 16) high]

/-- The high half of a merged word is the high input. -/
theorem u32_high_bits_merge (high low : Nat) (hh : high < 2 ^ 16)
    (hl : low < 2 ^ 16) : u32_high_bits (u32_merge_bits high low) = high := by
  rw [u32_merge_bits_eq_add high low hl, u32_high_bits,
    Nat.shiftRight_eq_div_pow, Nat.mul_comm high (2 ^ 16),
    Nat.mul_add_div (by norm_num), Nat.div_eq_of_lt hl, Nat.add_zero,
    Nat.mod_eq_of_lt hh]

/-- The low half of a merged word is the low input reduced modulo `U16_MAX`
(the extra reduction is the off-by-one modulus of `u32_low_bits`). -/
theorem u32_low_bits_merge (high low : Nat) (hl : low < 2 ^ 16) :
    u32_low_bits (u32_merge_bits high low) = low % U16_MAX := by
  rw [u32_merge_bits_eq_add high low hl, u32_low_bits,
    Nat.mul_comm high (2 ^ 16), Nat.mul_add_mod, Nat.mod_eq_of_lt hl]

/-- For a word whose low 16 bits are not all ones, `u32_low_bits` extracts
them exactly. -/
theorem u32_low_bits_eq (w : Nat) (h : w % 2 ^ 16 ≠ U16_MAX) :
    u32_low_bits w = w % 2 ^ 16 := by
  have hlt : w % 2 ^ 16 < 2 ^ 16 := Nat.mod_lt _ (by norm_num)
  rw [u32_low_bits, Nat.mod_eq_of_lt]
  rw [U16_MAX] at h ⊢
  omega

/-- For a 32-bit word, `u32_high_bits` is division by `2 ^ 16`. -/
theorem u32_high_bits_eq (w : Nat) (hw : w < 2 ^ 32) :
    u32_high_bits w = w / 2 ^ 16 := by
  rw [u32_high_bits, Nat.shiftRight_eq_div_pow, Nat.mod_eq_of_lt]
  omega

/-- Evaluation shape of the decoder: `new` splits the word and branches on
the zero-length and overflow tests. Definitional unfolding of the source. -/
theorem new_eval (w : Nat) :
    SinglePageAllocation.new w =
      (if u32_low_bits w = 0 then
        Except.error (RibosomeReturnCode.from_offset (u32_high_bits w))
      else if u32_high_bits w + u32_low_bits w > U16_MAX then
        Except.error RibosomeReturnCode.OutOfMemory
      else
        Except.ok { offset := u32_high_bits w, length := u32_low_bits w }) :=
  rfl

/-! ### Claim theorems -/

/-- C1: the claim that merging the split of a 32-bit word always reconstructs
the word is false on the source: because `u32_low_bits` reduces modulo
`U16_MAX = 65535` instead of `2 ^ 16`, the word 65535 splits to (0, 0) and
merges back to 0. -/
theorem C1_merge_split_not_left_inverse :
    ¬ ∀ w : Nat, w < 2 ^ 32 →
      u32_merge_bits (u32_high_bits w) (u32_low_bits w) = w := by
  intro h
  have h65535 := h 65535 (by norm_num)
  rw [show u32_merge_bits (u32_high_bits 65535) (u32_low_bits 65535) = 0 from rfl] at h65535
  exact absurd h65535 (by norm_num)

/-- C8: the claim that splitting a merged pair recovers the pair is false on
the source: merging (0, 65535) gives the word 65535, whose low bits the
off-by-one modulus maps to 0, so the split returns (0, 0). -/
theorem C8_split_merge_not_right_inverse :
    ¬ ∀ high low : Nat, high < 2 ^ 16 → low < 2 ^ 16 →
      u32_split_bits (u32_merge_bits high low) = (high, low) := by
  intro h
  have hc := h 0 65535 (by norm_num) (by norm_num)
  rw [show u32_split_bits (u32_merge_bits 0 65535) = (0, 0) from rfl] at hc
  exact absurd (congrArg Prod.snd hc) (by norm_num)

/-- C2: the round-trip claim (`length ≥ 1` and `offset + length ≤ 65535`
imply a successful decode that re-encodes to the same word) is false on the
source at offset 0, length 65535: the decoder sees a zero length (65535 mod
65535) and fails with the Success selector. -/
theorem C2_roundtrip_fails_at_full_page :
    ¬ ∀ offset length : Nat, offset < 2 ^ 16 → length < 2 ^ 16 →
      1 ≤ length → offset + length ≤ U16_MAX →
      ∃ a, SinglePageAllocation.new (u32_merge_bits offset length) = Except.ok a ∧
        a.encode = u32_merge_bits offset length := by
  intro h
  obtain ⟨a, ha, -⟩ := h 0 65535 (by norm_num) (by norm_num) (by norm_num)
    (by norm_num [U16_MAX])
  rw [show SinglePageAllocation.new (u32_merge_bits 0 65535) =
    Except.error RibosomeReturnCode.Success from rfl] at ha
  exact Except.noConfusion ha

/-- C3: the claim that a merged pair with `length ≥ 1` and
`offset + length > 65535` always decodes to the `OutOfMemory` code is false
on the source at offset 1, length 65535: the off-by-one modulus turns the
length into 0, so the decoder takes the error-selector branch and returns
the generic Failure code instead. -/
theorem C3_overflow_selector_fails_at_max_length :
    ¬ ∀ offset length : Nat, offset < 2 ^ 16 → length < 2 ^ 16 →
      1 ≤ length → offset + length > U16_MAX →
      SinglePageAllocation.new (u32_merge_bits offset length) =
        Except.error RibosomeReturnCode.OutOfMemory := by
  intro h
  have hc := h 1 65535 (by norm_num) (by norm_num) (by norm_num)
    (by rw [U16_MAX]; omega)
  rw [show SinglePageAllocation.new (u32_merge_bits 1 65535) =
    Except.error RibosomeReturnCode.Failure from rfl] at hc
  have : RibosomeReturnCode.Failure = RibosomeReturnCode.OutOfMemory :=
    Except.error.inj hc
  exact absurd this (by decide)

/-- C10: `deallocate` compares `top` with the 16-bit wrapping sum
`offset + length mod 2 ^ 16`: with top 4 and the allocation
(offset 65535, length 5), whose untruncated sum 65540 exceeds the page,
deallocation succeeds and raises `top` to 65535. -/
theorem C10_deallocate_wrapping_add :
    65535 + 5 > U16_MAX ∧
    SinglePageStack.deallocate { top := 4 } { offset := 65535, length := 5 } =
      Except.ok { top := 65535 } ∧
    65535 > 4 :=
  ⟨by norm_num [U16_MAX], by rfl, by norm_num⟩

/-! ### Helper lemmas shared by the stack claims -/

/-- When the requested size fits, `allocate` returns the old top and bumps
the cursor by the size (the `u16` addition does not wrap under the
assertion). -/
theorem allocate_of_fits (s : SinglePageStack) (size : Nat)
    (h : s.top + size ≤ U16_MAX) :
    s.allocate size = some (s.top, { top := s.top + size }) := by
  rw [SinglePageStack.allocate, if_pos h,
    Nat.mod_eq_of_lt (by rw [U16_MAX] at h; omega)]

/-- When the top matches the wrapped end of the allocation, `deallocate`
pops back to the allocation offset. -/
theorem deallocate_of_top (s : SinglePageStack) (a : SinglePageAllocation)
    (h : s.top = (a.offset + a.length) % 2 ^ 16) :
    s.deallocate a = Except.ok { top := a.offset } := by
  rw [SinglePageStack.deallocate, if_pos h]

/-- When the top does not match the wrapped end of the allocation,
`deallocate` fails. -/
theorem deallocate_of_ne (s : SinglePageStack) (a : SinglePageAllocation)
    (h : s.top ≠ (a.offset + a.length) % 2 ^ 16) :
    s.deallocate a = Except.error () := by
  rw [SinglePageStack.deallocate, if_neg h]

/-- C4: decoding a word merged from an offset and a zero length always fails,
and the error is the catalog code for the offset selector. -/
theorem C4_zero_length_error (offset : Nat) (ho : offset < 2 ^ 16) :
    SinglePageAllocation.new (u32_merge_bits offset 0) =
      Except.error (RibosomeReturnCode.from_offset offset) := by
  have hh := u32_high_bits_merge offset 0 ho (by norm_num)
  have hl := u32_low_bits_merge offset 0 (by norm_num)
  rw [Nat.zero_mod] at hl
  rw [SinglePageAllocation.new]
  simp [u32_split_bits, hh, hl]

/-- C4 witness at offset 9. -/
theorem C4_zero_length_error_witness :
    9 < 2 ^ 16 ∧
    SinglePageAllocation.new (u32_merge_bits 9 0) =
      Except.error (RibosomeReturnCode.from_offset 9) :=
  ⟨by norm_num, C4_zero_length_error 9 (by norm_num)⟩

/-- C5: for any stack and any allocation satisfying the page invariant,
`deallocate` succeeds exactly when the top equals offset + length, popping
the top back to the offset, and fails (state unchanged) otherwise; in
particular after allocating A = (0, 10) and then B = (10, 5) from the empty
stack, deallocating A fails and deallocating B succeeds. -/
theorem C5_deallocate_lifo (s : SinglePageStack) (a : SinglePageAllocation)
    (hinv : a.offset + a.length ≤ U16_MAX) :
    (s.deallocate a = Except.ok { top := a.offset } ↔
      s.top = a.offset + a.length) ∧
    (s.top ≠ a.offset + a.length → s.deallocate a = Except.error ()) ∧
    SinglePageStack.allocate { top := 0 } 10 = some (0, { top := 10 }) ∧
    SinglePageStack.allocate { top := 10 } 5 = some (10, { top := 15 }) ∧
    SinglePageStack.deallocate { top := 15 } { offset := 0, length := 10 } =
      Except.error () ∧
    SinglePageStack.deallocate { top := 15 } { offset := 10, length := 5 } =
      Except.ok { top := 10 } := by
  have hmod : (a.offset + a.length) % 2 ^ 16 = a.offset + a.length :=
    Nat.mod_eq_of_lt (by rw [U16_MAX] at hinv; omega)
  refine ⟨⟨fun h => ?_, fun hc => ?_⟩, fun hc => ?_, by rfl, by rfl, by rfl,
    by rfl⟩
  · by_cases hc : s.top = a.offset + a.length
    · exact hc
    · rw [deallocate_of_ne s a (by rw [hmod]; exact hc)] at h
      exact Except.noConfusion h
  · exact deallocate_of_top s a (by rw [hmod]; exact hc)
  · exact deallocate_of_ne s a (by rw [hmod]; exact hc)

/-- C5 witness at top 30 with the allocation (20, 10). -/
theorem C5_deallocate_lifo_witness :
    20 + 10 ≤ U16_MAX ∧
    ((SinglePageStack.deallocate { top := 30 } { offset := 20, length := 10 } =
        Except.ok { top := 20 } ↔ (30 : Nat) = 20 + 10) ∧
      ((30 : Nat) ≠ 20 + 10 →
        SinglePageStack.deallocate { top := 30 } { offset := 20, length := 10 } =
          Except.error ()) ∧
      SinglePageStack.allocate { top := 0 } 10 = some (0, { top := 10 }) ∧
      SinglePageStack.allocate { top := 10 } 5 = some (10, { top := 15 }) ∧
      SinglePageStack.deallocate { top := 15 } { offset := 0, length := 10 } =
        Except.error () ∧
      SinglePageStack.deallocate { top := 15 } { offset := 10, length := 5 } =
        Except.ok { top := 10 }) :=
  ⟨by norm_num [U16_MAX],
    C5_deallocate_lifo { top := 30 } { offset := 20, length := 10 }
      (by norm_num [U16_MAX])⟩

/-- C6: under the precondition `top + size ≤ 65535` (evaluated without
truncation, as the source does in `u32`), `allocate` returns the old top and
sets the new top to old top + size. -/
theorem C6_allocate_bumps_top (s : SinglePageStack) (size : Nat)
    (h : s.top + size ≤ U16_MAX) :
    s.allocate size = some (s.top, { top := s.top + size }) :=
  allocate_of_fits s size h

/-- C6 witness at top 100, size 50. -/
theorem C6_allocate_bumps_top_witness :
    100 + 50 ≤ U16_MAX ∧
    SinglePageStack.allocate { top := 100 } 50 = some (100, { top := 150 }) :=
  ⟨by norm_num [U16_MAX], C6_allocate_bumps_top { top := 100 } 50
    (by norm_num [U16_MAX])⟩

/-- C7: from the default stack, allocating n returns offset 0 and leaves the
top at n; deallocating the allocation (0, n) then succeeds and resets the
top to 0. -/
theorem C7_push_pop_duality (n : Nat) (hn : n < 2 ^ 16) :
    SinglePageStack.allocate SinglePageStack.default n = some (0, { top := n }) ∧
    SinglePageStack.deallocate { top := n } { offset := 0, length := n } =
      Except.ok { top := 0 } := by
  constructor
  · have h := allocate_of_fits SinglePageStack.default n
      (by show 0 + n ≤ 65535; omega)
    simpa [SinglePageStack.default] using h
  · have h := deallocate_of_top { top := n } { offset := 0, length := n }
      (by show n = (0 + n) % 2 ^ 16; omega)
    simpa using h

/-- C7 witness at n = 12. -/
theorem C7_push_pop_duality_witness :
    12 < 2 ^ 16 ∧
    (SinglePageStack.allocate SinglePageStack.default 12 =
      some (0, { top := 12 }) ∧
    SinglePageStack.deallocate { top := 12 } { offset := 0, length := 12 } =
      Except.ok { top := 0 }) :=
  ⟨by norm_num, C7_push_pop_duality 12 (by norm_num)⟩

/-- C9: whenever decoding a 32-bit word succeeds, the resulting allocation
has a positive length, respects the page boundary, and re-encodes to the
original word (the off-by-one low-bits modulus never fires on the success
path, because a low half of 65535 would have been mapped to length 0 and
rejected). -/
theorem C9_decode_ok_valid_roundtrip (w : Nat) (hw : w < 2 ^ 32)
    (a : SinglePageAllocation) (h : SinglePageAllocation.new w = Except.ok a) :
    1 ≤ a.length ∧ a.offset + a.length ≤ U16_MAX ∧ a.encode = w := by
  obtain ⟨ao, al⟩ := a
  rw [new_eval] at h
  by_cases h0 : u32_low_bits w = 0
  · rw [if_pos h0] at h
    exact Except.noConfusion h
  · rw [if_neg h0] at h
    by_cases h1 : u32_high_bits w + u32_low_bits w > U16_MAX
    · rw [if_pos h1] at h
      exact Except.noConfusion h
    · rw [if_neg h1] at h
      have heq : ({ offset := u32_high_bits w, length := u32_low_bits w } :
          SinglePageAllocation) = ⟨ao, al⟩ := Except.ok.inj h
      have hao : u32_high_bits w = ao :=
        congrArg SinglePageAllocation.offset heq
      have hal : u32_low_bits w = al :=
        congrArg SinglePageAllocation.length heq
      have hm : w % 2 ^ 16 ≠ U16_MAX := by
        intro hc
        apply h0
        rw [u32_low_bits, hc, Nat.mod_self]
      have hlow : u32_low_bits w = w % 2 ^ 16 := u32_low_bits_eq w hm
      have hhigh : u32_high_bits w = w / 2 ^ 16 := u32_high_bits_eq w hw
      refine ⟨?_, ?_, ?_⟩
      · rw [show SinglePageAllocation.length ⟨ao, al⟩ = al from rfl, ← hal]
        exact Nat.one_le_iff_ne_zero.mpr h0
      · show ao + al ≤ U16_MAX
        omega
      · show u32_merge_bits ao al = w
        rw [← hao, ← hal, hlow, hhigh,
          u32_merge_bits_eq_add _ _ (Nat.mod_lt w (by norm_num))]
        omega

/-- C9 witness at the word 196615, which decodes to offset 3, length 7. -/
theorem C9_decode_ok_valid_roundtrip_witness :
    196615 < 2 ^ 32 ∧
    SinglePageAllocation.new 196615 = Except.ok { offset := 3, length := 7 } ∧
    (1 ≤ 7 ∧ 3 + 7 ≤ U16_MAX ∧
      SinglePageAllocation.encode { offset := 3, length := 7 } = 196615) :=
  ⟨by norm_num, by rfl,
    C9_decode_ok_valid_roundtrip 196615 (by norm_num)
      { offset := 3, length := 7 } (by rfl)⟩
